import Mathlib

/-!
Verification of the CPC V2 module (`pl_bolts/models/self_supervised/cpc/cpc_module.py`)
against its natural-language specification.

Tensors are shallowly embedded as a shape (list of dimension sizes) together
with a flat data list in row-major (C-contiguous) order, exactly the layout
PyTorch uses.  The tensor operations used by the module (`squeeze(-1)`,
`view`/`reshape` with one inferred `-1` dimension, `permute(0,2,1).contiguous()`,
element access, row indexing `Z[0]`) are modelled faithfully, including their
failure conditions, which are surfaced as `Option`/`none` where the Python code
would raise.
-/

/-- A PyTorch-style tensor: a shape and row-major flat data. -/
structure PTensor (α : Type) where
  shape : List Nat
  data : List α
deriving DecidableEq, Repr

namespace PTensor

variable {α : Type}

/-- Number of elements according to the shape (PyTorch `numel`). -/
def numel (t : PTensor α) : Nat := t.shape.prod

/-- `t.size(i)` for a nonnegative index `i` in range. -/
def size (t : PTensor α) (i : Nat) : Nat := t.shape.getD i 0

/-- `t.squeeze(-1)`: drop the last dimension when it has size 1, else no-op. -/
def squeezeLast (t : PTensor α) : PTensor α :=
  if t.shape.getLast? = some 1 then ⟨t.shape.dropLast, t.data⟩ else t

/-- `t.view(pre..., -1, post...)`: reshape with a single inferred dimension.
Fails (like PyTorch) when the known dimensions have product 0, the tensor is
empty, or the element count is not divisible by that product.  Data is
unchanged (the tensors this module views are contiguous). -/
def viewInfer (t : PTensor α) (pre post : List Nat) : Option (PTensor α) :=
  let k := pre.prod * post.prod
  if 0 < k ∧ 0 < t.numel ∧ k ∣ t.numel then
    some ⟨pre ++ t.numel / k :: post, t.data⟩
  else none

/-- Row-major source index for `permute(0, 2, 1).contiguous()` on a tensor of
shape `(d0, d1, d2)`: destination flat index `idx` over shape `(d0, d2, d1)`
reads element `(idx / (d2*d1), idx % d1, idx / d1 % d2)` of the source. -/
def permSrc (d1 d2 idx : Nat) : Nat :=
  idx / (d2 * d1) * (d1 * d2) + idx % d1 * d2 + idx / d1 % d2

/-- `t.permute(0, 2, 1).contiguous()` for a 3-D tensor: swap the last two
dimensions and materialize the data in the new row-major order. -/
def permute021 [Inhabited α] (t : PTensor α) : Option (PTensor α) :=
  match t.shape with
  | [d0, d1, d2] =>
      some ⟨[d0, d2, d1],
            (List.range (d0 * d2 * d1)).map fun idx => t.data.getD (permSrc d1 d2 idx) default⟩
  | _ => none

/-- Element access `t[b][c][i][j]` on a 4-D tensor. -/
def get4 [Inhabited α] (t : PTensor α) (b c i j : Nat) : α :=
  t.data.getD (((b * t.size 1 + c) * t.size 2 + i) * t.size 3 + j) default

/-- `torch.zeros(shape)`. -/
def zerosT [Zero α] (shape : List Nat) : PTensor α :=
  ⟨shape, List.replicate shape.prod 0⟩

/-- Python `Z[0]` : first row of a tensor (drops the leading dimension), or the
first element when applied to a list; fails on an empty list / 0-d tensor /
empty leading dimension. -/
def row0 (t : PTensor α) : Option (PTensor α) :=
  match t.shape with
  | [] => none
  | d0 :: rest => if 0 < d0 then some ⟨rest, t.data.take rest.prod⟩ else none

end PTensor

/-- Partial fold computing the largest `m < k` with `m * m ≤ n` (0 when none).
Helper for `isqrt`. -/
def isqrtF (n k : Nat) : Nat :=
  (List.range k).foldl (fun acc m => if m * m ≤ n then m else acc) 0

/-- Executable floor square root, modelling Python `int(math.sqrt n)`.
Proven equal to `Nat.sqrt` in `isqrt_eq_sqrt`; defined by a structural fold so
that concrete instances reduce inside the kernel. -/
def isqrt (n : Nat) : Nat := isqrtF n (n + 1)

/-- The data list produced by `permute(0,2,1).contiguous()` when
`recover_z_shape` is run on a flat tensor of `b*P` patch vectors with `Cz`
channels: the reshapes before and after the permute do not move data. -/
def permData {α : Type} [Inhabited α] (data : List α) (b P Cz : Nat) : List α :=
  (List.range (b * Cz * P)).map fun idx => data.getD (PTensor.permSrc P Cz idx) default

namespace CPCV2

/-- `CPCV2.__recover_z_shape(Z, b)` (cpc_module.py:193-201):

    Z = Z.squeeze(-1)
    nb_feats = int(math.sqrt(Z.size(0) // b))
    Z = Z.view(b, -1, Z.size(1))
    Z = Z.permute(0, 2, 1).contiguous()
    Z = Z.view(b, -1, nb_feats, nb_feats)

`int(math.sqrt k)` is the floor square root `isqrt` (equal to `Nat.sqrt`).
`nb_feats` is computed from the squeezed tensor's sizes before the first
`view`, as in the source. -/
def recover_z_shape {α : Type} [Inhabited α] (Z : PTensor α) (b : Nat) : Option (PTensor α) :=
  match (Z.squeezeLast).viewInfer [b] [(Z.squeezeLast).size 1] with
  | none => none
  | some Z2 =>
    match Z2.permute021 with
    | none => none
    | some Z3 =>
        Z3.viewInfer [b]
          [isqrt ((Z.squeezeLast).size 0 / b), isqrt ((Z.squeezeLast).size 0 / b)]

end CPCV2

/-- The flat tensor of shape `(B*(n*n), Cz, 1, 1)` obtained by flattening a
grid `(B, Cz, n, n)` in image-major, row-then-column patch order: flat entry
`e = b*(n*n) + i*n + j`, channel `c`, holds `g b c i j`. -/
def mkFlat {α : Type} (B Cz n : Nat) (g : Nat → Nat → Nat → Nat → α) : PTensor α :=
  ⟨[B * (n * n), Cz, 1, 1],
   (List.range (B * (n * n) * Cz)).map fun idx =>
     g (idx / Cz / (n * n)) (idx % Cz) (idx / Cz % (n * n) / n) (idx / Cz % (n * n) % n)⟩

/-- How the `encoder` hyperparameter was provided to the constructor: either a
string name or an `nn.Module` instance.  The code compares it with the string
`'cpc_encoder'`, and a module instance never equals a string. -/
inductive EncoderSpec where
  | name (s : String)
  | module
deriving DecidableEq, Repr

/-- What an encoder call returns: a single tensor, or (for the torchvision
encoders) a list of feature maps. -/
inductive EncOut (α : Type) where
  | tensor (t : PTensor α)
  | seq (ts : List (PTensor α))
deriving DecidableEq, Repr

namespace CPCV2

/-- Python `self.hparams.encoder == 'cpc_encoder'`. -/
def isCpcName : EncoderSpec → Bool
  | .name s => s == "cpc_encoder"
  | .module => false

/-- Python `Z[0]` applied to an encoder result: first element of a list, or
the first row of a tensor. -/
def encIndex0 {α : Type} : EncOut α → Option (PTensor α)
  | .tensor t => t.row0
  | .seq [] => none
  | .seq (t :: _) => some t

/-- The branch `if self.hparams.encoder != 'cpc_encoder': Z = Z[0]`
(cpc_module.py:211-213 and 185-187).  On the `'cpc_encoder'` path a list
result would crash later (a Python list has no `squeeze`), modelled as
`none`. -/
def extractZ {α : Type} (spec : EncoderSpec) (out : EncOut α) : Option (PTensor α) :=
  if isCpcName spec then
    match out with
    | .tensor t => some t
    | .seq _ => none
  else encIndex0 out

/-- `CPCV2.forward(img_1)` (cpc_module.py:203-218):

    b, p, c, w, h = img_1.size()
    img_1 = img_1.view(-1, c, w, h)
    Z = self.encoder(img_1)
    if self.hparams.encoder != 'cpc_encoder': Z = Z[0]
    Z = self.__recover_z_shape(Z, b)

The 5-tuple unpacking fails unless the input is 5-D. -/
def forward {α : Type} [Inhabited α] (spec : EncoderSpec) (enc : PTensor α → EncOut α)
    (img : PTensor α) : Option (PTensor α) :=
  match img.shape with
  | [b, _p, c, w, h] =>
    match img.viewInfer [] [c, w, h] with
    | none => none
    | some flat =>
      match extractZ spec (enc flat) with
      | none => none
      | some Z => recover_z_shape Z b
  | _ => none

end CPCV2

/-- A concrete 5-D patch batch (2 images, 1 patch each) used as input in
counterexamples and witnesses. -/
def c4img : PTensor Nat := ⟨[2, 1, 1, 1, 1], [0, 0]⟩

/-- A concrete single-tensor encoder output of shape `(2, 1, 1, 1)`. -/
def c4enc : PTensor Nat := ⟨[2, 1, 1, 1], [5, 9]⟩

/-- Learned parameters: `theta i` are encoder parameters, `phi i` are online
probe (`SSLEvaluator`) parameters. -/
inductive GVar where
  | theta (i : Nat)
  | phi (i : Nat)
deriving DecidableEq, Repr

/-- Scalar expressions over the learned parameters, with a stop-gradient
operation.  `detach e` evaluates like `e` but contributes no gradient —
the semantics of `torch.Tensor.detach()` and of results produced under
`torch.no_grad()`. -/
inductive GExpr where
  | var (v : GVar)
  | const (q : Int)
  | add (a b : GExpr)
  | mul (a b : GExpr)
  | detach (a : GExpr)
deriving DecidableEq, Repr

instance : Inhabited GExpr := ⟨GExpr.const 0⟩

namespace GExpr

/-- Value of an expression at a parameter assignment. -/
def eval (ρ : GVar → Int) : GExpr → Int
  | var v => ρ v
  | const q => q
  | add a b => eval ρ a + eval ρ b
  | mul a b => eval ρ a * eval ρ b
  | detach a => eval ρ a

/-- Derivative with respect to the encoder parameter `theta i` (forward
mode); `detach` stops all gradient flow. -/
def gradTheta (ρ : GVar → Int) (i : Nat) : GExpr → Int
  | var (.theta j) => if j = i then 1 else 0
  | var (.phi _) => 0
  | const _ => 0
  | add a b => gradTheta ρ i a + gradTheta ρ i b
  | mul a b => gradTheta ρ i a * eval ρ b + eval ρ a * gradTheta ρ i b
  | detach _ => 0

/-- Every occurrence of an encoder parameter is severed by a `detach`:
such an expression contributes no encoder gradient. -/
def thetaFree : GExpr → Bool
  | var (.theta _) => false
  | var (.phi _) => true
  | const _ => true
  | add a b => thetaFree a && thetaFree b
  | mul a b => thetaFree a && thetaFree b
  | detach _ => true

end GExpr

/-- `t.detach()`, and likewise the result of a forward pass run inside
`with torch.no_grad():` — every scalar of the tensor carries no gradient
history. -/
def detachT (t : PTensor GExpr) : PTensor GExpr := ⟨t.shape, t.data.map GExpr.detach⟩

/-- A dataloader batch: either a single `(image_patches, labels)` pair, or —
for datasets with joint labeled+unlabeled sampling — a pair of such pairs,
indexable as `batch[0]` / `batch[1]`. -/
inductive Batch (I L : Type) where
  | one (item : I × L)
  | two (fst snd : I × L)
deriving DecidableEq, Repr

/-- The dict returned by `training_step`: `{'loss': ..., 'log': ...}`. -/
structure StepResult where
  loss : GExpr
  log : List (String × GExpr)
deriving DecidableEq, Repr

namespace CPCV2

/-- cpc_module.py:221-227 (and identically 263-269):

    if self.hparams.dataset == 'stl10':
        labeled_batch = batch[1]
        unlabeled_batch = batch[0]
        batch = unlabeled_batch
    img_1, y = batch

The branch is decided purely by the configured dataset string.  Returns the
`(img_1, y)` pair together with the labeled batch (bound only on the stl10
path).  A mismatched batch shape crashes downstream (indexing a pair with the
stl10 branch picks out a tensor and a label, and tuple-unpacking a pair of
pairs binds `img_1` to a pair), modelled as `none`. -/
def stl10Split {I L : Type} (dataset : String) (batch : Batch I L) :
    Option ((I × L) × Option (I × L)) :=
  if dataset == "stl10" then
    match batch with
    | .two u l => some (u, some l)
    | .one _ => none
  else
    match batch with
    | .one item => some (item, none)
    | .two _ _ => none

/-- `CPCV2.training_step(batch, batch_nb)` (cpc_module.py:220-259),
parameterized by the external collaborators: the encoder, the `CPCTask`
InfoNCE loss `info_nce`, the `SSLEvaluator` probe `evaluator`,
and `F.cross_entropy`.  `with torch.no_grad(): Z = self(img_1)` is modelled
by detaching the result of the second forward pass, and `z_in = Z.detach()`
by a further detach; `z_in = z_in.reshape(Z.size(0), -1)` is the final
reshape. -/
def training_step {L : Type} (spec : EncoderSpec) (enc : PTensor GExpr → EncOut GExpr)
    (info_nce : PTensor GExpr → GExpr)
    (evaluator : PTensor GExpr → PTensor GExpr)
    (cross_entropy : PTensor GExpr → L → GExpr)
    (dataset : String) (online_evaluator : Bool)
    (batch : Batch (PTensor GExpr) L) : Option StepResult :=
  match stl10Split dataset batch with
  | none => none
  | some ((img_1, y), labeled) =>
    match forward spec enc img_1 with
    | none => none
    | some Z =>
      let nce_loss := info_nce Z
      if online_evaluator then
        match (if dataset == "stl10" then labeled else some (img_1, y)) with
        | none => none
        | some (imgP, yP) =>
          match forward spec enc imgP with
          | none => none
          | some Zp =>
            let Zng := detachT Zp
            let z_in := detachT Zng
            match z_in.viewInfer [Zng.size 0] [] with
            | none => none
            | some z2 =>
              let mlp_loss := cross_entropy (evaluator z2) yP
              some ⟨GExpr.add nce_loss mlp_loss,
                    [("train_nce_loss", nce_loss), ("train_mlp_loss", mlp_loss)]⟩
      else
        some ⟨nce_loss, [("train_nce_loss", nce_loss)]⟩

/-- `CPCV2.validation_step(batch, batch_nb)` (cpc_module.py:261-291).  No
gradient-severing appears on this path; on the stl10 branch the labeled batch
is run through `forward` again.  Returns the per-step result dict. -/
def validation_step {L : Type} (spec : EncoderSpec) (enc : PTensor GExpr → EncOut GExpr)
    (info_nce : PTensor GExpr → GExpr)
    (evaluator : PTensor GExpr → PTensor GExpr)
    (cross_entropy : PTensor GExpr → L → GExpr)
    (accuracy : PTensor GExpr → L → GExpr)
    (dataset : String) (online_evaluator : Bool)
    (batch : Batch (PTensor GExpr) L) : Option (List (String × GExpr)) :=
  match stl10Split dataset batch with
  | none => none
  | some ((img_1, y), labeled) =>
    match forward spec enc img_1 with
    | none => none
    | some Z =>
      let nce_loss := info_nce Z
      if online_evaluator then
        match (if dataset == "stl10" then
                 match labeled with
                 | none => none
                 | some (imgL, yL) =>
                   match forward spec enc imgL with
                   | none => none
                   | some ZL => some (yL, ZL)
               else some (y, Z)) with
        | none => none
        | some (yP, Zp) =>
          match Zp.viewInfer [Zp.size 0] [] with
          | none => none
          | some z_in =>
            let mlp_preds := evaluator z_in
            some [("val_nce", nce_loss),
                  ("mlp_acc", accuracy mlp_preds yP),
                  ("mlp_loss", cross_entropy mlp_preds yP)]
      else
        some [("val_nce", nce_loss)]

/-- Modelled from the spec: `pl_bolts.metrics.mean(outputs, key)` is code of
this repository that is not under `src/`; per the spec, validation metrics are
aggregated "across an epoch by arithmetic mean", so it is the arithmetic mean
of `out[key]` over the per-step outputs. -/
def metricsMean (outputs : List (List (String × ℚ))) (key : String) : ℚ :=
  (outputs.map fun o => (o.lookup key).getD 0).sum / outputs.length

/-- The dict returned by `validation_epoch_end`:
`{'val_loss': ..., 'log': ..., 'progress_bar': ...}`. -/
structure ValEpochResult where
  val_loss : ℚ
  log : List (String × ℚ)
  progress_bar : List (String × ℚ)
deriving DecidableEq, Repr

/-- `CPCV2.validation_epoch_end(outputs)` (cpc_module.py:293-303). -/
def validation_epoch_end (online_evaluator : Bool)
    (outputs : List (List (String × ℚ))) : ValEpochResult :=
  ⟨metricsMean outputs "val_nce",
   ("val_nce_loss", metricsMean outputs "val_nce") ::
     (if online_evaluator then
        [("val_mlp_acc", metricsMean outputs "mlp_acc"),
         ("val_mlp_loss", metricsMean outputs "mlp_loss")]
      else []),
   ("val_nce_loss", metricsMean outputs "val_nce") ::
     (if online_evaluator then
        [("val_mlp_acc", metricsMean outputs "mlp_acc"),
         ("val_mlp_loss", metricsMean outputs "mlp_loss")]
      else [])⟩

/-- `CPCV2.__compute_final_nb_c(patch_size)` (cpc_module.py:181-191):

    dummy_batch = torch.zeros((2 * 49, 3, patch_size, patch_size))
    dummy_batch = self.encoder(dummy_batch)
    if self.hparams.encoder != 'cpc_encoder': dummy_batch = dummy_batch[0]
    dummy_batch = self.__recover_z_shape(dummy_batch, 2)
    b, c, h, w = dummy_batch.size()
    return c, h

The 4-tuple unpacking fails unless the recovered tensor is 4-D. -/
def compute_final_nb_c {α : Type} [Inhabited α] [Zero α] (spec : EncoderSpec)
    (enc : PTensor α → EncOut α) (patch_size : Nat) : Option (Nat × Nat) :=
  match extractZ spec (enc (PTensor.zerosT [2 * 49, 3, patch_size, patch_size])) with
  | none => none
  | some Z =>
    match recover_z_shape Z 2 with
    | none => none
    | some r =>
      match r.shape with
      | [_b, c, h, _w] => some (c, h)
      | _ => none

end CPCV2

/-- The construction-time bindings derived from the capability probe
(cpc_module.py:132-144): `CPCTask(num_input_channels=c, ...)` binds the
InfoNCE task's input-channel count to the probed `c`, and when the online
evaluator is enabled `SSLEvaluator(n_input=z_dim, ...)` binds the probe
input width to `z_dim = c*h*h`. -/
structure InitResult where
  nce_num_input_channels : Nat
  z_dim : Option Nat
deriving DecidableEq, Repr

namespace CPCV2

/-- The shape-dependent part of `CPCV2.__init__` (cpc_module.py:132-144):
run the capability probe once, then bind the InfoNCE channel count and
(when the online evaluator is enabled) the probe input width.  A failing
probe fails construction. -/
def initModel {α : Type} [Inhabited α] [Zero α] (spec : EncoderSpec)
    (enc : PTensor α → EncOut α) (patch_size : Nat) (online_ft : Bool) :
    Option InitResult :=
  match compute_final_nb_c spec enc patch_size with
  | none => none
  | some (c, h) => some ⟨c, if online_ft then some (c * h * h) else none⟩

end CPCV2

/-- A Python value appearing in `load_pretrained`'s membership tests: a
string, or the `available_weights` set itself. -/
inductive PyVal where
  | pyStr (s : String)
  | pySet (elems : List String)
deriving DecidableEq, Repr

/-- Python `x in s` for a set of strings: membership testing hashes `x`, and
a set is unhashable, so using the set itself as the left operand raises
`TypeError` (`none`). -/
def pyIn (x : PyVal) (s : List String) : Option Bool :=
  match x with
  | .pyStr v => some (decide (v ∈ s))
  | .pySet _ => none

/-- Observable outcome of `load_pretrained`. -/
inductive LoadOutcome where
  | loaded (key : String)
  | warned (msg : String)
  | nothing
  | typeError
deriving DecidableEq, Repr

namespace CPCV2

/-- `CPCV2.load_pretrained(encoder)` (cpc_module.py:149-155):

    available_weights = {'resnet18'}
    if encoder in available_weights:
        load_pretrained(self, f'CPCV2-{encoder}')
    elif available_weights not in available_weights:
        rank_zero_warn(f'{encoder} not yet available')

The `elif` tests the set `available_weights` for membership in itself, which
raises `TypeError` (a set is unhashable) instead of reaching the warning. -/
def load_pretrained (encoder : String) : LoadOutcome :=
  match pyIn (.pyStr encoder) ["resnet18"] with
  | none => .typeError
  | some true => .loaded ("CPCV2-" ++ encoder)
  | some false =>
    match pyIn (.pySet ["resnet18"]) ["resnet18"] with
    | none => .typeError
    | some true => .nothing
    | some false => .warned (encoder ++ " not yet available")

end CPCV2

/-- One step's `(val_nce, mlp_acc, mlp_loss)` values packaged as the result
dict of `validation_step`. -/
def mkValOut (r : ℚ × ℚ × ℚ) : List (String × ℚ) :=
  [("val_nce", r.1), ("mlp_acc", r.2.1), ("mlp_loss", r.2.2)]

/-- Concrete witness fixtures for the step theorems: an encoder producing a
single latent scalar depending on the encoder parameter `theta 0`, and a
one-image, one-patch input batch. -/
def wEncT : PTensor GExpr := ⟨[1, 1, 1, 1], [GExpr.var (.theta 0)]⟩

def wEnc : PTensor GExpr → EncOut GExpr := fun _ => .tensor wEncT

def wImg : PTensor GExpr := ⟨[1, 1, 1, 1, 1], [GExpr.const 3]⟩

def wInfoNce : PTensor GExpr → GExpr := fun t => t.data.headD (GExpr.const 0)

def wEvaluator : PTensor GExpr → PTensor GExpr := fun t => t

def wCrossEntropy : PTensor GExpr → Unit → GExpr :=
  fun t _ => GExpr.add (t.data.headD (GExpr.const 0)) (GExpr.var (.phi 0))

/-- The probe input produced from `wEnc`'s latent grid after the two
detaches and the flattening reshape. -/
def wZ2 : PTensor GExpr := ⟨[1, 1], [GExpr.detach (GExpr.detach (GExpr.var (.theta 0)))]⟩

/-- A concrete parameter assignment. -/
def wRho : GVar → Int := fun _ => 2

/-- A concrete per-patch-vector encoder for the construction-probe witnesses:
maps any input to a `(98, 1, 1, 1)` tensor. -/
def w8Enc : PTensor Nat → EncOut Nat :=
  fun _ => .tensor ⟨[98, 1, 1, 1], List.replicate 98 0⟩

/-- A concrete per-patch-vector encoder with 2 channels: maps any input to a
`(98, 2, 1, 1)` tensor. -/
def w9Enc : PTensor Nat → EncOut Nat :=
  fun _ => .tensor ⟨[98, 2, 1, 1], List.replicate 196 0⟩

theorem isqrtF_succ (n k : Nat) :
    isqrtF n (k + 1) = if k * k ≤ n then k else isqrtF n k := by
  unfold isqrtF
  rw [List.range_succ, List.foldl_append]
  rfl

theorem isqrtF_inv (n k : Nat) :
    isqrtF n k * isqrtF n k ≤ n ∧ ∀ m, m < k → m * m ≤ n → m ≤ isqrtF n k := by
  induction k with
  | zero =>
    refine ⟨?_, ?_⟩
    · show 0 * 0 ≤ n
      omega
    · intro m hm
      omega
  | succ k ih =>
    rw [isqrtF_succ]
    by_cases h : k * k ≤ n
    · rw [if_pos h]
      exact ⟨h, fun m hm _ => by omega⟩
    · rw [if_neg h]
      refine ⟨ih.1, fun m hm hmn => ?_⟩
      have hmk : m ≠ k := by
        rintro rfl
        exact h hmn
      exact ih.2 m (by omega) hmn

theorem isqrt_eq_sqrt (n : Nat) : isqrt n = Nat.sqrt n := by
  have h := isqrtF_inv n (n + 1)
  apply Nat.le_antisymm
  · exact Nat.le_sqrt.mpr h.1
  · exact h.2 (Nat.sqrt n) (by have := Nat.sqrt_le_self n; omega) (Nat.sqrt_le n)

theorem getDRangeMap {α : Type} (N : Nat) (f : Nat → α) (i : Nat) (h : i < N) (d : α) :
    ((List.range N).map f).getD i d = f i := by
  rw [List.getD_eq_getElem?_getD, List.getElem?_map, List.getElem?_range h]
  rfl

theorem indexPairLt {a A x X : Nat} (ha : a < A) (hx : x < X) : a * X + x < A * X := by
  calc a * X + x < a * X + X := by omega
    _ = (a + 1) * X := by ring
    _ ≤ A * X := Nat.mul_le_mul_right X ha

/-- Full evaluation of `__recover_z_shape` on a flat tensor of shape
`(b*P, Cz, 1, 1)`: with `n = floor(sqrt P)` it succeeds exactly when
`n*n` divides `Cz*P`, and then returns the permuted data reshaped to
`(b, Cz*P/(n*n), n, n)`. -/
theorem recover_run {α : Type} [Inhabited α] (t : PTensor α) (b P Cz : Nat)
    (hb : 1 ≤ b) (hC : 1 ≤ Cz) (hP : 1 ≤ P)
    (hsh : t.shape = [b * P, Cz, 1, 1]) :
    CPCV2.recover_z_shape t b =
      if Nat.sqrt P * Nat.sqrt P ∣ Cz * P then
        some ⟨[b, Cz * P / (Nat.sqrt P * Nat.sqrt P), Nat.sqrt P, Nat.sqrt P],
              permData t.data b P Cz⟩
      else none := by
  obtain ⟨sh, data⟩ := t
  simp only at hsh
  subst hsh
  have hsq : PTensor.squeezeLast ⟨[b * P, Cz, 1, 1], data⟩ = ⟨[b * P, Cz, 1], data⟩ := rfl
  have hsize0 : (PTensor.mk (α := α) [b * P, Cz, 1] data).size 0 = b * P := rfl
  have hsize1 : (PTensor.mk (α := α) [b * P, Cz, 1] data).size 1 = Cz := rfl
  have hnb : isqrt ((PTensor.mk (α := α) [b * P, Cz, 1] data).size 0 / b) = Nat.sqrt P := by
    rw [isqrt_eq_sqrt, hsize0, Nat.mul_div_cancel_left P hb]
  have hnumel : (PTensor.mk (α := α) [b * P, Cz, 1] data).numel = b * P * Cz := by
    simp [PTensor.numel, List.prod_cons]
  have hview3 : (PTensor.mk (α := α) [b * P, Cz, 1] data).viewInfer [b] [Cz]
      = some ⟨[b, P, Cz], data⟩ := by
    unfold PTensor.viewInfer
    have hk : ([b].prod * [Cz].prod) = b * Cz := by simp
    rw [hnumel, hk, if_pos]
    · have : b * P * Cz / (b * Cz) = P := by
        have h1 : b * P * Cz = b * Cz * P := by ring
        rw [h1, Nat.mul_div_cancel_left P (by positivity)]
      rw [this]
      rfl
    · refine ⟨by positivity, by positivity, ⟨P, by ring⟩⟩
  have hperm : (PTensor.mk (α := α) [b, P, Cz] data).permute021
      = some ⟨[b, Cz, P], permData data b P Cz⟩ := rfl
  have hn1 : 0 < Nat.sqrt P := Nat.sqrt_pos.mpr hP
  unfold CPCV2.recover_z_shape
  rw [hsq, hnb, hsize1, hview3]
  dsimp only
  rw [hperm]
  dsimp only
  have hnumel2 : (PTensor.mk (α := α) [b, Cz, P] (permData data b P Cz)).numel
      = b * (Cz * P) := by
    simp [PTensor.numel, List.prod_cons]
  by_cases hdvd : Nat.sqrt P * Nat.sqrt P ∣ Cz * P
  · rw [if_pos hdvd]
    unfold PTensor.viewInfer
    have hk : ([b].prod * [Nat.sqrt P, Nat.sqrt P].prod) = b * (Nat.sqrt P * Nat.sqrt P) := by
      simp
    rw [hnumel2, hk, if_pos]
    · have : b * (Cz * P) / (b * (Nat.sqrt P * Nat.sqrt P))
          = Cz * P / (Nat.sqrt P * Nat.sqrt P) :=
        Nat.mul_div_mul_left (Cz * P) (Nat.sqrt P * Nat.sqrt P) hb
      rw [this]
      rfl
    · exact ⟨by positivity, by positivity, Nat.mul_dvd_mul_left b hdvd⟩
  · rw [if_neg hdvd]
    unfold PTensor.viewInfer
    have hk : ([b].prod * [Nat.sqrt P, Nat.sqrt P].prod) = b * (Nat.sqrt P * Nat.sqrt P) := by
      simp
    rw [hnumel2, hk, if_neg]
    intro ⟨h1, h2, h3⟩
    exact hdvd ((Nat.mul_dvd_mul_iff_left hb).mp h3)

/-- C1: Grid Reassembly round-trip.  For every batch size `B ≥ 1`, channel
count `Cz ≥ 1` and grid side `n ≥ 1` (patch count `P = n*n` a perfect square),
running `__recover_z_shape` on the flat tensor of shape `(B*P, Cz, 1, 1)`
obtained by flattening a grid `(B, Cz, n, n)` in image-major, row-then-column
patch order reproduces that grid exactly: the output has shape
`(B, Cz, n, n)` and `output[b][c][i][j]` equals the channel-`c` component of
flat entry `b*P + i*n + j`, i.e. the original grid value `g b c i j`. -/
theorem C1_reassembly_round_trip {α : Type} [Inhabited α] (B Cz n : Nat)
    (g : Nat → Nat → Nat → Nat → α) (hB : 1 ≤ B) (hC : 1 ≤ Cz) (hn : 1 ≤ n) :
    ∃ out, CPCV2.recover_z_shape (mkFlat B Cz n g) B = some out ∧
      out.shape = [B, Cz, n, n] ∧
      ∀ b c i j, b < B → c < Cz → i < n → j < n → out.get4 b c i j = g b c i j := by
  have hn0 : 0 < n := hn
  have hnn : 0 < n * n := by positivity
  have hCz0 : 0 < Cz := hC
  have hCnn : 0 < Cz * (n * n) := by positivity
  have hrun := recover_run (mkFlat B Cz n g) B (n * n) Cz hB hC (Nat.mul_pos hn0 hn0) rfl
  rw [Nat.sqrt_eq] at hrun
  rw [if_pos ⟨Cz, by ring⟩] at hrun
  have hdiv : Cz * (n * n) / (n * n) = Cz := Nat.mul_div_cancel Cz hnn
  rw [hdiv] at hrun
  refine ⟨_, hrun, rfl, ?_⟩
  intro b c i j hb hc hi hj
  have hij : i * n + j < n * n := indexPairLt hi hj
  have hcn : c * (n * n) + (i * n + j) < Cz * (n * n) := indexPairLt hc hij
  show (permData (mkFlat B Cz n g).data B (n * n) Cz).getD
      (((b * Cz + c) * n + i) * n + j) default = g b c i j
  unfold permData
  have hbound : ((b * Cz + c) * n + i) * n + j < B * Cz * (n * n) := by
    calc ((b * Cz + c) * n + i) * n + j
        = (b * Cz + c) * (n * n) + (i * n + j) := by ring
      _ < B * Cz * (n * n) := indexPairLt (indexPairLt hb hc) hij
  rw [getDRangeMap _ _ _ hbound]
  unfold PTensor.permSrc
  have e1 : (((b * Cz + c) * n + i) * n + j) / (Cz * (n * n)) = b := by
    have h1 : ((b * Cz + c) * n + i) * n + j
        = Cz * (n * n) * b + (c * (n * n) + (i * n + j)) := by ring
    rw [h1, Nat.mul_add_div hCnn, Nat.div_eq_of_lt hcn, Nat.add_zero]
  have e2 : (((b * Cz + c) * n + i) * n + j) % (n * n) = i * n + j := by
    have h1 : ((b * Cz + c) * n + i) * n + j
        = (n * n) * (b * Cz + c) + (i * n + j) := by ring
    rw [h1, Nat.mul_add_mod, Nat.mod_eq_of_lt hij]
  have e3 : (((b * Cz + c) * n + i) * n + j) / (n * n) % Cz = c := by
    have h1 : ((b * Cz + c) * n + i) * n + j
        = (n * n) * (b * Cz + c) + (i * n + j) := by ring
    rw [h1, Nat.mul_add_div hnn, Nat.div_eq_of_lt hij, Nat.add_zero]
    have h2 : b * Cz + c = Cz * b + c := by ring
    rw [h2, Nat.mul_add_mod, Nat.mod_eq_of_lt hc]
  rw [e1, e2, e3]
  unfold mkFlat
  have hsrc : b * ((n * n) * Cz) + (i * n + j) * Cz + c < B * (n * n) * Cz := by
    calc b * ((n * n) * Cz) + (i * n + j) * Cz + c
        = (b * (n * n) + (i * n + j)) * Cz + c := by ring
      _ < B * (n * n) * Cz := indexPairLt (indexPairLt hb hij) hc
  rw [getDRangeMap _ _ _ hsrc]
  have f1 : (b * ((n * n) * Cz) + (i * n + j) * Cz + c) / Cz
      = b * (n * n) + (i * n + j) := by
    have h1 : b * ((n * n) * Cz) + (i * n + j) * Cz + c
        = Cz * (b * (n * n) + (i * n + j)) + c := by ring
    rw [h1, Nat.mul_add_div hCz0, Nat.div_eq_of_lt hc, Nat.add_zero]
  have f2 : (b * ((n * n) * Cz) + (i * n + j) * Cz + c) % Cz = c := by
    have h1 : b * ((n * n) * Cz) + (i * n + j) * Cz + c
        = Cz * (b * (n * n) + (i * n + j)) + c := by ring
    rw [h1, Nat.mul_add_mod, Nat.mod_eq_of_lt hc]
  rw [f1, f2]
  have f3 : (b * (n * n) + (i * n + j)) / (n * n) = b := by
    have h1 : b * (n * n) + (i * n + j) = (n * n) * b + (i * n + j) := by ring
    rw [h1, Nat.mul_add_div hnn, Nat.div_eq_of_lt hij, Nat.add_zero]
  have f4 : (b * (n * n) + (i * n + j)) % (n * n) = i * n + j := by
    have h1 : b * (n * n) + (i * n + j) = (n * n) * b + (i * n + j) := by ring
    rw [h1, Nat.mul_add_mod, Nat.mod_eq_of_lt hij]
  rw [f3, f4]
  have f5 : (i * n + j) / n = i := by
    have h1 : i * n + j = n * i + j := by ring
    rw [h1, Nat.mul_add_div hn0, Nat.div_eq_of_lt hj, Nat.add_zero]
  have f6 : (i * n + j) % n = j := by
    have h1 : i * n + j = n * i + j := by ring
    rw [h1, Nat.mul_add_mod, Nat.mod_eq_of_lt hj]
  rw [f5, f6]

/-- Witness for C1 at `B = 1`, `Cz = 2`, `n = 2` with a concrete grid. -/
theorem C1_reassembly_round_trip_witness :
    ∃ out, CPCV2.recover_z_shape
        (mkFlat 1 2 2 (fun b c i j => b * 1000 + c * 100 + i * 10 + j)) 1 = some out ∧
      out.shape = [1, 2, 2, 2] ∧
      ∀ b c i j, b < 1 → c < 2 → i < 2 → j < 2 →
        out.get4 b c i j = b * 1000 + c * 100 + i * 10 + j :=
  C1_reassembly_round_trip 1 2 2 (fun b c i j => b * 1000 + c * 100 + i * 10 + j)
    (by decide) (by decide) (by decide)

/-- C2 (amended): for valid `(B, P, Cz)` with `P = m*m` a perfect square, the
output shape of `__recover_z_shape` is exactly `(B, Cz, m, m)`.  For a `P`
that is not a perfect square the call does NOT necessarily fail: with
`n = floor(sqrt P)` it raises a shape error exactly when `n*n` does not
divide `Cz*P`, and otherwise silently returns a reshaped grid of shape
`(B, Cz*P/(n*n), n, n)`. -/
theorem C2_shape_invariant {α : Type} [Inhabited α] (t : PTensor α) (b Cz P : Nat)
    (hb : 1 ≤ b) (hC : 1 ≤ Cz) (hP : 1 ≤ P) (hsh : t.shape = [b * P, Cz, 1, 1]) :
    (∀ m, 1 ≤ m → P = m * m →
       ∃ out, CPCV2.recover_z_shape t b = some out ∧ out.shape = [b, Cz, m, m])
    ∧ (Nat.sqrt P * Nat.sqrt P ∣ Cz * P →
         ∃ out, CPCV2.recover_z_shape t b = some out ∧
           out.shape = [b, Cz * P / (Nat.sqrt P * Nat.sqrt P), Nat.sqrt P, Nat.sqrt P])
    ∧ (¬ Nat.sqrt P * Nat.sqrt P ∣ Cz * P → CPCV2.recover_z_shape t b = none) := by
  have hrun := recover_run t b P Cz hb hC hP hsh
  refine ⟨?_, ?_, ?_⟩
  · intro m hm hPm
    subst hPm
    rw [Nat.sqrt_eq] at hrun
    rw [if_pos ⟨Cz, by ring⟩] at hrun
    refine ⟨_, hrun, ?_⟩
    have hmm : 0 < m * m := Nat.mul_pos hm hm
    rw [Nat.mul_div_cancel Cz hmm]
  · intro hdvd
    rw [if_pos hdvd] at hrun
    exact ⟨_, hrun, rfl⟩
  · intro hdvd
    rw [if_neg hdvd] at hrun
    exact hrun

/-- Witness for C2 at `b = 1`, `Cz = 3`, `P = 4 = 2*2` on a zero tensor. -/
theorem C2_shape_invariant_witness :
    ∃ out, CPCV2.recover_z_shape (PTensor.zerosT (α := Nat) [1 * 4, 3, 1, 1]) 1 = some out ∧
      out.shape = [1, 3, 2, 2] :=
  (C2_shape_invariant (PTensor.zerosT (α := Nat) [1 * 4, 3, 1, 1]) 1 3 4
    (by decide) (by decide) (by decide) rfl).1 2 (by decide) (by decide)

/-- Counterexample to C2 as stated: for the non-perfect-square patch count
`P = 2` (with `B = 1`, `Cz = 1`), `__recover_z_shape` does not fail with a
shape error — it silently returns a grid of shape `(1, 2, 1, 1)`. -/
theorem C2_counterexample :
    (CPCV2.recover_z_shape (PTensor.zerosT (α := Nat) [2, 1, 1, 1]) 1).map PTensor.shape
      = some [1, 2, 1, 1] := by decide

/-- C4 (amended): `forward` handles the sequence-returning encoder form
exactly when the `encoder` hyperparameter is not the string `'cpc_encoder'`
(whether another string or a module instance), and the single-tensor form
exactly when it is `'cpc_encoder'`; in those matching configurations the two
forms produce the same latent grid for every input patch batch.  (The claim's
stronger statement — that the two forms are interchangeable regardless of how
the encoder was given — is refuted by `C4_counterexample`.) -/
theorem C4_encoder_polymorphism {α : Type} [Inhabited α] (s : String)
    (hs : s ≠ "cpc_encoder") (e : PTensor α → PTensor α)
    (rest : PTensor α → List (PTensor α)) (img : PTensor α) :
    CPCV2.forward (.name s) (fun x => .seq (e x :: rest x)) img
      = CPCV2.forward (.name "cpc_encoder") (fun x => .tensor (e x)) img
    ∧ CPCV2.forward .module (fun x => .seq (e x :: rest x)) img
      = CPCV2.forward (.name "cpc_encoder") (fun x => .tensor (e x)) img := by
  have hbeq : (s == "cpc_encoder") = false := beq_eq_false_iff_ne.mpr hs
  have hx : ∀ spec, CPCV2.isCpcName spec = false →
      CPCV2.forward spec (fun x => .seq (e x :: rest x)) img
        = CPCV2.forward (.name "cpc_encoder") (fun x => .tensor (e x)) img := by
    intro spec hspec
    obtain ⟨sh, d⟩ := img
    unfold CPCV2.forward
    rcases sh with _ | ⟨a0, _ | ⟨a1, _ | ⟨a2, _ | ⟨a3, _ | ⟨a4, _ | ⟨a5, tl⟩⟩⟩⟩⟩⟩
    · rfl
    · rfl
    · rfl
    · rfl
    · rfl
    · cases hv : PTensor.viewInfer ⟨[a0, a1, a2, a3, a4], d⟩ [] [a2, a3, a4] with
      | none => simp only [hv]
      | some flat =>
        simp only [hv]
        have h1 : CPCV2.extractZ spec (EncOut.seq (e flat :: rest flat)) = some (e flat) := by
          unfold CPCV2.extractZ
          rw [hspec]
          rfl
        have h2 : CPCV2.extractZ (.name "cpc_encoder") (EncOut.tensor (e flat))
            = some (e flat) := rfl
        rw [h1, h2]
    · rfl
  refine ⟨hx _ ?_, hx _ rfl⟩
  show (s == "cpc_encoder") = false
  exact hbeq

/-- Witness for C4 at `s = "resnet18"` on a concrete image batch. -/
theorem C4_encoder_polymorphism_witness :
    CPCV2.forward (.name "resnet18") (fun _ => .seq [c4enc]) c4img
      = CPCV2.forward (.name "cpc_encoder") (fun _ => .tensor c4enc) c4img
    ∧ CPCV2.forward .module (fun _ => .seq [c4enc]) c4img
      = CPCV2.forward (.name "cpc_encoder") (fun _ => .tensor c4enc) c4img :=
  C4_encoder_polymorphism "resnet18" (by decide) (fun _ => c4enc) (fun _ => []) c4img

/-- Counterexample to C4 as stated: with the encoder given as a module
instance, an encoder returning a single tensor of shape `(N, Cz, 1, 1)` is
NOT handled equivalently to one returning a one-element sequence — `Z[0]`
slices the tensor's first row instead of unwrapping a list, and the two calls
disagree (the single-tensor call fails). -/
theorem C4_counterexample :
    CPCV2.forward .module (fun _ => .tensor c4enc) c4img
      ≠ CPCV2.forward .module (fun _ => .seq [c4enc]) c4img := by decide

theorem viewInfer_data {α : Type} (t t' : PTensor α) (pre post : List Nat)
    (h : t.viewInfer pre post = some t') : t'.data = t.data := by
  unfold PTensor.viewInfer at h
  by_cases hc : 0 < pre.prod * post.prod ∧ 0 < t.numel ∧ pre.prod * post.prod ∣ t.numel
  · rw [if_pos hc] at h
    cases h
    rfl
  · rw [if_neg hc] at h
    cases h

theorem thetaFree_gradTheta (e : GExpr) (h : GExpr.thetaFree e = true)
    (ρ : GVar → Int) (i : Nat) : GExpr.gradTheta ρ i e = 0 := by
  induction e with
  | var v =>
    cases v with
    | theta j => simp [GExpr.thetaFree] at h
    | phi j => rfl
  | const q => rfl
  | add a b iha ihb =>
    simp only [GExpr.thetaFree, Bool.and_eq_true] at h
    simp [GExpr.gradTheta, iha h.1, ihb h.2]
  | mul a b iha ihb =>
    simp only [GExpr.thetaFree, Bool.and_eq_true] at h
    simp [GExpr.gradTheta, iha h.1, ihb h.2]
  | detach a iha => rfl

/-- Full evaluation of `training_step` for both values of the online-probe
flag, given the intermediate results of its collaborator calls. -/
theorem training_step_run {L : Type} (spec : EncoderSpec)
    (enc : PTensor GExpr → EncOut GExpr) (info_nce : PTensor GExpr → GExpr)
    (evaluator : PTensor GExpr → PTensor GExpr)
    (cross_entropy : PTensor GExpr → L → GExpr) (dataset : String)
    (batch : Batch (PTensor GExpr) L) (img_1 imgP : PTensor GExpr) (y yP : L)
    (labeled : Option (PTensor GExpr × L)) (Z Zp z2 : PTensor GExpr)
    (hs : CPCV2.stl10Split dataset batch = some ((img_1, y), labeled))
    (hf : CPCV2.forward spec enc img_1 = some Z)
    (hp : (if dataset == "stl10" then labeled else some (img_1, y)) = some (imgP, yP))
    (hf2 : CPCV2.forward spec enc imgP = some Zp)
    (hv : (detachT (detachT Zp)).viewInfer [(detachT Zp).size 0] [] = some z2) :
    CPCV2.training_step spec enc info_nce evaluator cross_entropy dataset true batch
      = some ⟨GExpr.add (info_nce Z) (cross_entropy (evaluator z2) yP),
              [("train_nce_loss", info_nce Z),
               ("train_mlp_loss", cross_entropy (evaluator z2) yP)]⟩
    ∧ CPCV2.training_step spec enc info_nce evaluator cross_entropy dataset false batch
      = some ⟨info_nce Z, [("train_nce_loss", info_nce Z)]⟩ := by
  constructor
  · unfold CPCV2.training_step
    rw [hs]
    dsimp only
    rw [hf]
    dsimp only
    rw [if_pos rfl, hp]
    dsimp only
    rw [hf2]
    dsimp only
    rw [hv]
  · unfold CPCV2.training_step
    rw [hs]
    dsimp only
    rw [hf]
    dsimp only
    rw [if_neg Bool.false_ne_true]

/-- C5: Training-step combination contract.  Given the collaborator results
of a successful step: with the online probe enabled, `training_step` returns
a total loss equal to the contrastive loss plus the probe cross-entropy loss
and logs both under `'train_nce_loss'` and `'train_mlp_loss'`; with the probe
disabled the returned loss is the contrastive loss alone; and the probe input
`z2` is the doubly gradient-severed result of a second forward pass
(hypothesis `hv`: the reshape of `detachT (detachT Zp)`, where the outer
`detachT` models the `torch.no_grad()` scope and `Zp` is the second
`forward`). -/
theorem C5_training_step_combination {L : Type} (spec : EncoderSpec)
    (enc : PTensor GExpr → EncOut GExpr) (info_nce : PTensor GExpr → GExpr)
    (evaluator : PTensor GExpr → PTensor GExpr)
    (cross_entropy : PTensor GExpr → L → GExpr) (dataset : String)
    (batch : Batch (PTensor GExpr) L) (img_1 imgP : PTensor GExpr) (y yP : L)
    (labeled : Option (PTensor GExpr × L)) (Z Zp z2 : PTensor GExpr)
    (hs : CPCV2.stl10Split dataset batch = some ((img_1, y), labeled))
    (hf : CPCV2.forward spec enc img_1 = some Z)
    (hp : (if dataset == "stl10" then labeled else some (img_1, y)) = some (imgP, yP))
    (hf2 : CPCV2.forward spec enc imgP = some Zp)
    (hv : (detachT (detachT Zp)).viewInfer [(detachT Zp).size 0] [] = some z2) :
    CPCV2.training_step spec enc info_nce evaluator cross_entropy dataset true batch
      = some ⟨GExpr.add (info_nce Z) (cross_entropy (evaluator z2) yP),
              [("train_nce_loss", info_nce Z),
               ("train_mlp_loss", cross_entropy (evaluator z2) yP)]⟩
    ∧ CPCV2.training_step spec enc info_nce evaluator cross_entropy dataset false batch
      = some ⟨info_nce Z, [("train_nce_loss", info_nce Z)]⟩ :=
  training_step_run spec enc info_nce evaluator cross_entropy dataset batch
    img_1 imgP y yP labeled Z Zp z2 hs hf hp hf2 hv

/-- Witness for C5 on concrete fixtures (cifar10 dataset, single batch). -/
theorem C5_training_step_combination_witness :
    CPCV2.training_step (.name "cpc_encoder") wEnc wInfoNce wEvaluator wCrossEntropy
        "cifar10" true (Batch.one (wImg, ()))
      = some ⟨GExpr.add (wInfoNce wEncT) (wCrossEntropy (wEvaluator wZ2) ()),
              [("train_nce_loss", wInfoNce wEncT),
               ("train_mlp_loss", wCrossEntropy (wEvaluator wZ2) ())]⟩
    ∧ CPCV2.training_step (.name "cpc_encoder") wEnc wInfoNce wEvaluator wCrossEntropy
        "cifar10" false (Batch.one (wImg, ()))
      = some ⟨wInfoNce wEncT, [("train_nce_loss", wInfoNce wEncT)]⟩ :=
  C5_training_step_combination (.name "cpc_encoder") wEnc wInfoNce wEvaluator wCrossEntropy
    "cifar10" (Batch.one (wImg, ())) wImg wImg () () none wEncT wEncT wZ2
    (by decide) (by decide) (by decide) (by decide) (by decide)

/-- C3: Gradient isolation of the online probe.  For every encoder parameter
`theta i` and every parameter assignment, provided the probe (`evaluator`)
and the cross-entropy introduce no encoder parameter of their own (they are
built from probe parameters and their input), enabling or disabling the probe
loss term leaves the encoder gradient of the returned training loss
unchanged, and that gradient is the gradient of the contrastive (InfoNCE)
loss alone. -/
theorem C3_gradient_isolation {L : Type} (spec : EncoderSpec)
    (enc : PTensor GExpr → EncOut GExpr) (info_nce : PTensor GExpr → GExpr)
    (evaluator : PTensor GExpr → PTensor GExpr)
    (cross_entropy : PTensor GExpr → L → GExpr) (dataset : String)
    (batch : Batch (PTensor GExpr) L) (img_1 imgP : PTensor GExpr) (y yP : L)
    (labeled : Option (PTensor GExpr × L)) (Z Zp z2 : PTensor GExpr)
    (ρ : GVar → Int) (i : Nat)
    (hev : ∀ t : PTensor GExpr, (∀ e ∈ t.data, GExpr.thetaFree e = true) →
            ∀ e ∈ (evaluator t).data, GExpr.thetaFree e = true)
    (hce : ∀ (t : PTensor GExpr) (yy : L), (∀ e ∈ t.data, GExpr.thetaFree e = true) →
            GExpr.thetaFree (cross_entropy t yy) = true)
    (hs : CPCV2.stl10Split dataset batch = some ((img_1, y), labeled))
    (hf : CPCV2.forward spec enc img_1 = some Z)
    (hp : (if dataset == "stl10" then labeled else some (img_1, y)) = some (imgP, yP))
    (hf2 : CPCV2.forward spec enc imgP = some Zp)
    (hv : (detachT (detachT Zp)).viewInfer [(detachT Zp).size 0] [] = some z2) :
    (CPCV2.training_step spec enc info_nce evaluator cross_entropy dataset true batch).map
        (fun r => GExpr.gradTheta ρ i r.loss)
      = (CPCV2.training_step spec enc info_nce evaluator cross_entropy dataset false batch).map
          (fun r => GExpr.gradTheta ρ i r.loss)
    ∧ (CPCV2.training_step spec enc info_nce evaluator cross_entropy dataset false batch).map
        (fun r => GExpr.gradTheta ρ i r.loss)
      = some (GExpr.gradTheta ρ i (info_nce Z)) := by
  obtain ⟨h1, h0⟩ := training_step_run spec enc info_nce evaluator cross_entropy dataset batch
    img_1 imgP y yP labeled Z Zp z2 hs hf hp hf2 hv
  rw [h1, h0]
  have hz2 : ∀ e ∈ z2.data, GExpr.thetaFree e = true := by
    have hd : z2.data = (detachT (detachT Zp)).data := viewInfer_data _ _ _ _ hv
    rw [hd]
    intro e he
    obtain ⟨e', he', rfl⟩ := List.mem_map.mp he
    rfl
  have hmlp : GExpr.thetaFree (cross_entropy (evaluator z2) yP) = true :=
    hce (evaluator z2) yP (hev z2 hz2)
  have hzero : GExpr.gradTheta ρ i (cross_entropy (evaluator z2) yP) = 0 :=
    thetaFree_gradTheta _ hmlp ρ i
  constructor
  · show some (GExpr.gradTheta ρ i (GExpr.add (info_nce Z) (cross_entropy (evaluator z2) yP)))
        = some (GExpr.gradTheta ρ i (info_nce Z))
    have : GExpr.gradTheta ρ i (GExpr.add (info_nce Z) (cross_entropy (evaluator z2) yP))
        = GExpr.gradTheta ρ i (info_nce Z) + GExpr.gradTheta ρ i (cross_entropy (evaluator z2) yP) :=
      rfl
    rw [this, hzero, Int.add_zero]
  · rfl

/-- Witness for C3 on concrete fixtures. -/
theorem C3_gradient_isolation_witness :
    (CPCV2.training_step (.name "cpc_encoder") wEnc wInfoNce wEvaluator wCrossEntropy
        "cifar10" true (Batch.one (wImg, ()))).map (fun r => GExpr.gradTheta wRho 0 r.loss)
      = (CPCV2.training_step (.name "cpc_encoder") wEnc wInfoNce wEvaluator wCrossEntropy
          "cifar10" false (Batch.one (wImg, ()))).map (fun r => GExpr.gradTheta wRho 0 r.loss)
    ∧ (CPCV2.training_step (.name "cpc_encoder") wEnc wInfoNce wEvaluator wCrossEntropy
        "cifar10" false (Batch.one (wImg, ()))).map (fun r => GExpr.gradTheta wRho 0 r.loss)
      = some (GExpr.gradTheta wRho 0 (wInfoNce wEncT)) :=
  C3_gradient_isolation (.name "cpc_encoder") wEnc wInfoNce wEvaluator wCrossEntropy
    "cifar10" (Batch.one (wImg, ())) wImg wImg () () none wEncT wEncT wZ2 wRho 0
    (fun t h => h)
    (by
      intro t yy h
      cases ht : t.data with
      | nil => simp [wCrossEntropy, GExpr.thetaFree, ht]
      | cons a as =>
        have ha : GExpr.thetaFree a = true := h a (by rw [ht]; exact List.mem_cons_self a as)
        simp [wCrossEntropy, GExpr.thetaFree, ht, ha])
    (by decide) (by decide) (by decide) (by decide) (by decide)

/-- C6: Configuration-flag-only batch-shape branching.  The step
orchestration branches between single-stream and dual-stream batches purely
on the configured dataset string, for all batch contents: under
`dataset = 'stl10'` a dual batch is split into `batch[0]` (contrastive path)
and `batch[1]` (probe path) and a single batch is rejected; under any other
dataset a single `(image_patches, labels)` pair feeds both paths and a dual
batch is rejected.  The last two conjuncts exhibit the resulting losses:
under stl10 the contrastive loss comes from `batch[0]` and the probe
cross-entropy from `batch[1]`; otherwise both come from the single pair. -/
theorem C6_flag_only_branching {L : Type} (d : String) (hd : d ≠ "stl10")
    (u l it : PTensor GExpr × L) :
    CPCV2.stl10Split "stl10" (Batch.two u l) = some (u, some l)
    ∧ CPCV2.stl10Split "stl10" (Batch.one it) = none
    ∧ CPCV2.stl10Split d (Batch.one it) = some (it, none)
    ∧ CPCV2.stl10Split d (Batch.two u l) = none
    ∧ (∀ (spec : EncoderSpec) (enc : PTensor GExpr → EncOut GExpr)
         (info_nce : PTensor GExpr → GExpr) (evaluator : PTensor GExpr → PTensor GExpr)
         (cross_entropy : PTensor GExpr → L → GExpr) (Z Zp z2 : PTensor GExpr),
        CPCV2.forward spec enc u.1 = some Z →
        CPCV2.forward spec enc l.1 = some Zp →
        (detachT (detachT Zp)).viewInfer [(detachT Zp).size 0] [] = some z2 →
        CPCV2.training_step spec enc info_nce evaluator cross_entropy "stl10" true
            (Batch.two u l)
          = some ⟨GExpr.add (info_nce Z) (cross_entropy (evaluator z2) l.2),
                  [("train_nce_loss", info_nce Z),
                   ("train_mlp_loss", cross_entropy (evaluator z2) l.2)]⟩)
    ∧ (∀ (spec : EncoderSpec) (enc : PTensor GExpr → EncOut GExpr)
         (info_nce : PTensor GExpr → GExpr) (evaluator : PTensor GExpr → PTensor GExpr)
         (cross_entropy : PTensor GExpr → L → GExpr) (Z z2 : PTensor GExpr),
        CPCV2.forward spec enc it.1 = some Z →
        (detachT (detachT Z)).viewInfer [(detachT Z).size 0] [] = some z2 →
        CPCV2.training_step spec enc info_nce evaluator cross_entropy d true
            (Batch.one it)
          = some ⟨GExpr.add (info_nce Z) (cross_entropy (evaluator z2) it.2),
                  [("train_nce_loss", info_nce Z),
                   ("train_mlp_loss", cross_entropy (evaluator z2) it.2)]⟩) := by
  have hbeq : (d == "stl10") = false := beq_eq_false_iff_ne.mpr hd
  have h1 : CPCV2.stl10Split "stl10" (Batch.two u l) = some (u, some l) := rfl
  have h2 : CPCV2.stl10Split "stl10" (Batch.one it) = none := rfl
  have h3 : CPCV2.stl10Split d (Batch.one it) = some (it, none) := by
    unfold CPCV2.stl10Split
    rw [hbeq]
    rfl
  have h4 : CPCV2.stl10Split d (Batch.two u l) = none := by
    unfold CPCV2.stl10Split
    rw [hbeq]
    rfl
  refine ⟨h1, h2, h3, h4, ?_, ?_⟩
  · intro spec enc info_nce evaluator cross_entropy Z Zp z2 hf hf2 hv
    exact (training_step_run spec enc info_nce evaluator cross_entropy "stl10"
      (Batch.two u l) u.1 l.1 u.2 l.2 (some l) Z Zp z2 h1 hf rfl hf2 hv).1
  · intro spec enc info_nce evaluator cross_entropy Z z2 hf hv
    refine (training_step_run spec enc info_nce evaluator cross_entropy d
      (Batch.one it) it.1 it.1 it.2 it.2 none Z Z z2 h3 hf ?_ hf hv).1
    rw [hbeq]
    rfl

/-- Witness for C6: instantiation at `d = "cifar10"` and concrete batches,
including the evaluated stl10 training step. -/
theorem C6_flag_only_branching_witness :
    CPCV2.stl10Split "stl10" (Batch.two (wImg, ()) (wImg, ())) = some ((wImg, ()), some (wImg, ()))
    ∧ CPCV2.stl10Split "cifar10" (Batch.one (wImg, ())) = some ((wImg, ()), none)
    ∧ CPCV2.stl10Split "cifar10" (Batch.two (wImg, ()) (wImg, ())) = none
    ∧ CPCV2.training_step (.name "cpc_encoder") wEnc wInfoNce wEvaluator wCrossEntropy
        "stl10" true (Batch.two (wImg, ()) (wImg, ()))
      = some ⟨GExpr.add (wInfoNce wEncT) (wCrossEntropy (wEvaluator wZ2) ()),
              [("train_nce_loss", wInfoNce wEncT),
               ("train_mlp_loss", wCrossEntropy (wEvaluator wZ2) ())]⟩ := by
  have h := C6_flag_only_branching (L := Unit) "cifar10" (by decide)
    (wImg, ()) (wImg, ()) (wImg, ())
  exact ⟨h.1, h.2.2.1, h.2.2.2.1,
    h.2.2.2.2.1 (.name "cpc_encoder") wEnc wInfoNce wEvaluator wCrossEntropy
      wEncT wEncT wZ2 (by decide) (by decide) (by decide)⟩

/-- C7: Epoch-level validation aggregation.  For every non-empty list of
validation-step outputs (each carrying `val_nce`, `mlp_acc`, `mlp_loss`),
`validation_epoch_end` reports `val_nce_loss` — and, when the probe is
enabled, `val_mlp_acc` and `val_mlp_loss` — as the arithmetic mean of the
corresponding per-step values, and returns the mean contrastive loss as
`val_loss`. -/
theorem C7_validation_epoch_mean (rs : List (ℚ × ℚ × ℚ)) (hne : rs ≠ []) :
    (CPCV2.validation_epoch_end true (rs.map mkValOut)).val_loss
        = (rs.map fun r => r.1).sum / rs.length
    ∧ (CPCV2.validation_epoch_end true (rs.map mkValOut)).log
        = [("val_nce_loss", (rs.map fun r => r.1).sum / rs.length),
           ("val_mlp_acc", (rs.map fun r => r.2.1).sum / rs.length),
           ("val_mlp_loss", (rs.map fun r => r.2.2).sum / rs.length)]
    ∧ (CPCV2.validation_epoch_end false (rs.map mkValOut)).val_loss
        = (rs.map fun r => r.1).sum / rs.length
    ∧ (CPCV2.validation_epoch_end false (rs.map mkValOut)).log
        = [("val_nce_loss", (rs.map fun r => r.1).sum / rs.length)] := by
  have key : ∀ (key : String) (f : ℚ × ℚ × ℚ → ℚ),
      (∀ r, ((mkValOut r).lookup key).getD 0 = f r) →
      CPCV2.metricsMean (rs.map mkValOut) key = (rs.map f).sum / rs.length := by
    intro key f hk
    unfold CPCV2.metricsMean
    rw [List.map_map, List.length_map]
    have hfun : ((fun o => (List.lookup key o).getD 0) ∘ mkValOut) = f := funext hk
    rw [hfun]
  have m1 : CPCV2.metricsMean (rs.map mkValOut) "val_nce"
      = (rs.map fun r => r.1).sum / rs.length := key _ _ fun r => rfl
  have m2 : CPCV2.metricsMean (rs.map mkValOut) "mlp_acc"
      = (rs.map fun r => r.2.1).sum / rs.length := key _ _ fun r => rfl
  have m3 : CPCV2.metricsMean (rs.map mkValOut) "mlp_loss"
      = (rs.map fun r => r.2.2).sum / rs.length := key _ _ fun r => rfl
  refine ⟨m1, ?_, m1, ?_⟩
  · show ("val_nce_loss", CPCV2.metricsMean (rs.map mkValOut) "val_nce") ::
        (if true then
          [("val_mlp_acc", CPCV2.metricsMean (rs.map mkValOut) "mlp_acc"),
           ("val_mlp_loss", CPCV2.metricsMean (rs.map mkValOut) "mlp_loss")]
         else []) = _
    rw [if_pos rfl, m1, m2, m3]
  · show ("val_nce_loss", CPCV2.metricsMean (rs.map mkValOut) "val_nce") ::
        (if false then
          [("val_mlp_acc", CPCV2.metricsMean (rs.map mkValOut) "mlp_acc"),
           ("val_mlp_loss", CPCV2.metricsMean (rs.map mkValOut) "mlp_loss")]
         else []) = _
    rw [if_neg Bool.false_ne_true, m1]

/-- Witness for C7 on two concrete validation steps. -/
theorem C7_validation_epoch_mean_witness :
    (CPCV2.validation_epoch_end true ([((1 : ℚ), (2 : ℚ), (3 : ℚ)), (3, 4, 5)].map mkValOut)).val_loss
        = ([((1 : ℚ), (2 : ℚ), (3 : ℚ)), (3, 4, 5)].map fun r => r.1).sum
            / ([((1 : ℚ), (2 : ℚ), (3 : ℚ)), (3, 4, 5)] : List (ℚ × ℚ × ℚ)).length
    ∧ (CPCV2.validation_epoch_end true ([((1 : ℚ), (2 : ℚ), (3 : ℚ)), (3, 4, 5)].map mkValOut)).log
        = [("val_nce_loss", ([((1 : ℚ), (2 : ℚ), (3 : ℚ)), (3, 4, 5)].map fun r => r.1).sum
              / ([((1 : ℚ), (2 : ℚ), (3 : ℚ)), (3, 4, 5)] : List (ℚ × ℚ × ℚ)).length),
           ("val_mlp_acc", ([((1 : ℚ), (2 : ℚ), (3 : ℚ)), (3, 4, 5)].map fun r => r.2.1).sum
              / ([((1 : ℚ), (2 : ℚ), (3 : ℚ)), (3, 4, 5)] : List (ℚ × ℚ × ℚ)).length),
           ("val_mlp_loss", ([((1 : ℚ), (2 : ℚ), (3 : ℚ)), (3, 4, 5)].map fun r => r.2.2).sum
              / ([((1 : ℚ), (2 : ℚ), (3 : ℚ)), (3, 4, 5)] : List (ℚ × ℚ × ℚ)).length)]
    ∧ (CPCV2.validation_epoch_end false ([((1 : ℚ), (2 : ℚ), (3 : ℚ)), (3, 4, 5)].map mkValOut)).val_loss
        = ([((1 : ℚ), (2 : ℚ), (3 : ℚ)), (3, 4, 5)].map fun r => r.1).sum
            / ([((1 : ℚ), (2 : ℚ), (3 : ℚ)), (3, 4, 5)] : List (ℚ × ℚ × ℚ)).length
    ∧ (CPCV2.validation_epoch_end false ([((1 : ℚ), (2 : ℚ), (3 : ℚ)), (3, 4, 5)].map mkValOut)).log
        = [("val_nce_loss", ([((1 : ℚ), (2 : ℚ), (3 : ℚ)), (3, 4, 5)].map fun r => r.1).sum
            / ([((1 : ℚ), (2 : ℚ), (3 : ℚ)), (3, 4, 5)] : List (ℚ × ℚ × ℚ)).length)] :=
  C7_validation_epoch_mean [((1 : ℚ), (2 : ℚ), (3 : ℚ)), (3, 4, 5)] (List.cons_ne_nil _ _)

/-- C8: One-time construction capability probe.  The construction-time shape
inference depends on the encoder only through its value on the single
synthetic zero-filled batch `zeros(2*49, 3, patch_size, patch_size)` (so two
encoders agreeing there yield identical construction results); when the probe
returns `(c, h)`, construction binds the contrastive task's input-channel
count to `c` and — when the online evaluator is enabled — the probe input
width to `c*h*h`; and a failing probe fails construction, before any real
batch is accepted. -/
theorem C8_construction_probe {α : Type} [Inhabited α] [Zero α] (spec : EncoderSpec)
    (enc enc' : PTensor α → EncOut α) (ps : Nat) (online : Bool)
    (hagree : enc (PTensor.zerosT [2 * 49, 3, ps, ps])
      = enc' (PTensor.zerosT [2 * 49, 3, ps, ps])) :
    CPCV2.initModel spec enc ps online = CPCV2.initModel spec enc' ps online
    ∧ (∀ c h, CPCV2.compute_final_nb_c spec enc ps = some (c, h) →
        CPCV2.initModel spec enc ps online
          = some ⟨c, if online then some (c * h * h) else none⟩)
    ∧ (CPCV2.compute_final_nb_c spec enc ps = none →
        CPCV2.initModel spec enc ps online = none) := by
  have hcc : CPCV2.compute_final_nb_c spec enc ps = CPCV2.compute_final_nb_c spec enc' ps := by
    unfold CPCV2.compute_final_nb_c
    rw [hagree]
  refine ⟨?_, ?_, ?_⟩
  · unfold CPCV2.initModel
    rw [hcc]
  · intro c h hch
    unfold CPCV2.initModel
    rw [hch]
  · intro hn
    unfold CPCV2.initModel
    rw [hn]

/-- Witness for C8 with a concrete single-channel encoder at patch size 1. -/
theorem C8_construction_probe_witness :
    CPCV2.initModel (.name "cpc_encoder") w8Enc 1 true
      = CPCV2.initModel (.name "cpc_encoder") w8Enc 1 true
    ∧ CPCV2.initModel (.name "cpc_encoder") w8Enc 1 true
      = some ⟨1, if true then some (1 * 7 * 7) else none⟩ := by
  have h := C8_construction_probe (.name "cpc_encoder") w8Enc w8Enc 1 true rfl
  exact ⟨h.1, h.2.1 1 7 (by decide)⟩

/-- C9: the construction-time probe hard-codes a dummy batch of `2*49`
patches, so for EVERY patch size (and hence every patch_size/patch_overlap
configuration) a per-patch-vector encoder with `Cz` channels makes the probe
infer grid side `h = floor(sqrt 49) = 7`, and the online probe input width is
bound to `z_dim = Cz*7*7` — a 7×7 patch grid regardless of the patch count
real batches will contain. -/
theorem C9_probe_dummy_7x7 {α : Type} [Inhabited α] [Zero α] (ps Cz : Nat) (hCz : 1 ≤ Cz)
    (enc : PTensor α → EncOut α) (t : PTensor α)
    (henc : enc (PTensor.zerosT [2 * 49, 3, ps, ps]) = .tensor t)
    (hsh : t.shape = [2 * 49, Cz, 1, 1]) :
    CPCV2.compute_final_nb_c (.name "cpc_encoder") enc ps = some (Cz, 7)
    ∧ ∀ r, CPCV2.initModel (.name "cpc_encoder") enc ps true = some r →
        r.z_dim = some (Cz * 7 * 7) := by
  have hs49 : Nat.sqrt 49 = 7 := by norm_num
  have hrun := recover_run t 2 49 Cz (by decide) hCz (by decide) hsh
  rw [hs49] at hrun
  rw [if_pos ⟨Cz, by ring⟩] at hrun
  have hdiv : Cz * 49 / (7 * 7) = Cz := by
    have : (7 * 7 : Nat) = 49 := by norm_num
    rw [this]
    exact Nat.mul_div_cancel Cz (by norm_num)
  rw [hdiv] at hrun
  have hcompute : CPCV2.compute_final_nb_c (.name "cpc_encoder") enc ps = some (Cz, 7) := by
    unfold CPCV2.compute_final_nb_c
    rw [henc]
    have hex : CPCV2.extractZ (.name "cpc_encoder") (EncOut.tensor t) = some t := rfl
    rw [hex]
    dsimp only
    rw [hrun]
  refine ⟨hcompute, ?_⟩
  intro r hr
  unfold CPCV2.initModel at hr
  rw [hcompute] at hr
  dsimp only at hr
  cases hr
  rfl

/-- Witness for C9 at patch size 5 with a 2-channel per-patch encoder. -/
theorem C9_probe_dummy_7x7_witness :
    CPCV2.compute_final_nb_c (.name "cpc_encoder") w9Enc 5 = some (2, 7)
    ∧ (⟨2, some (2 * 7 * 7)⟩ : InitResult).z_dim = some (2 * 7 * 7) := by
  have h := C9_probe_dummy_7x7 5 2 (by decide) w9Enc
    ⟨[98, 2, 1, 1], List.replicate 196 0⟩ rfl (by decide)
  exact ⟨h.1, h.2 ⟨2, some (2 * 7 * 7)⟩ (by decide)⟩

/-- C10: for every encoder name other than `'resnet18'`, `load_pretrained`
neither loads weights nor emits the intended warning: the fallback guard
tests the set for membership in itself and raises `TypeError`; pretrained
weights are only ever loaded for the name `'resnet18'`. -/
theorem C10_load_pretrained_guard (s : String) (hs : s ≠ "resnet18") :
    CPCV2.load_pretrained s = .typeError
    ∧ CPCV2.load_pretrained "resnet18" = .loaded "CPCV2-resnet18" := by
  constructor
  · unfold CPCV2.load_pretrained
    have hmem : ¬ (s ∈ ["resnet18"]) := by simp [hs]
    have h1 : pyIn (.pyStr s) ["resnet18"] = some false := by
      unfold pyIn
      dsimp only
      rw [decide_eq_false hmem]
    rw [h1]
    rfl
  · decide

/-- Witness for C10 at the unavailable name `'resnet50'`. -/
theorem C10_load_pretrained_guard_witness :
    CPCV2.load_pretrained "resnet50" = .typeError
    ∧ CPCV2.load_pretrained "resnet18" = .loaded "CPCV2-resnet18" :=
  C10_load_pretrained_guard "resnet50" (by decide)
